import Mathlib

/-!
# Verification of the melina.js asset pipeline, import-map synthesizer and request dispatch

This development is a shallow embedding of the core module of the repository
(the variant exporting `imports`, `buildScript`, `buildStyle`, `buildAsset`,
`asset`, `serve` and `clearCaches`).  JavaScript objects used as string-keyed
maps are embedded as association lists (`List (String × _)`) with
insert-or-replace preserving insertion order, matching JS object key order.
Host-runtime effects (the bundler `Bun.build`, the shell fallback, PostCSS,
SHA-256 hashing, the filesystem) are oracles collected in an `Env` record;
the embedded functions are deterministic functions of the oracle outputs,
exactly following the control flow of the source.  Thrown `Error` values are
embedded as `Except String`, carrying the exact message string the source
constructs.
-/

set_option autoImplicit false

namespace Melina

universe u

/-- Lookup in a JS-object-as-association-list: first binding of the key. -/
def lookupStr {α : Type u} (l : List (String × α)) (k : String) : Option α :=
  match l with
  | [] => none
  | kv :: rest => if kv.1 = k then some kv.2 else lookupStr rest k

/-- JS object property assignment: replace the first binding of the key in
place (JS objects keep the original insertion position on re-assignment),
otherwise append a new binding at the end. -/
def upsert {α : Type u} (l : List (String × α)) (k : String) (v : α) : List (String × α) :=
  match l with
  | [] => [(k, v)]
  | kv :: rest => if kv.1 = k then (kv.1, v) :: rest else kv :: upsert rest k v

/-- The values of an association list. -/
def valsOf {α : Type u} (l : List (String × α)) : List α :=
  l.map Prod.snd

/-- Split a character list at every occurrence of `c` (the semantics of
JS `split` with a one-character separator, which is the only separator the
module uses). -/
def splitOnChar (c : Char) : List Char → List (List Char)
  | [] => [[]]
  | x :: rest =>
    match splitOnChar c rest with
    | [] => [[]]
    | cur :: parts => if x = c then [] :: cur :: parts else (x :: cur) :: parts

/-- `s.split('/')`. -/
def strSplitSlash (s : String) : List String :=
  (splitOnChar '/' s.data).map String.mk

/-- The first `n` characters (`slice(0, n)` on the digest strings). -/
def strTake (s : String) (n : Nat) : String :=
  String.mk (s.data.take n)

/-- All but the first `n` characters. -/
def strDrop (s : String) (n : Nat) : String :=
  String.mk (s.data.drop n)

/-- All but the last `n` characters. -/
def strDropRight (s : String) (n : Nat) : String :=
  String.mk (s.data.take (s.data.length - n))

/-- `startsWith`. -/
def strStartsWith (s pfx : String) : Bool :=
  pfx.data.isPrefixOf s.data

/-- `endsWith`. -/
def strEndsWith (s sfx : String) : Bool :=
  sfx.data.reverse.isPrefixOf s.data.reverse

/-- `toLowerCase`, character by character (the inputs are ASCII names and
extensions). -/
def lowerStr (s : String) : String :=
  String.mk (s.data.map Char.toLower)

/-- `sep.join(parts)` / `String.intercalate`. -/
def strIntercalate (sep : String) : List String → String
  | [] => ""
  | x :: xs => xs.foldl (fun acc y => acc ++ sep ++ y) x

/-- `path.basename`: the part after the last `/`. -/
def pathBasename (p : String) : String :=
  (strSplitSlash p).getLastD ""

/-- `path.extname`: from the last `.` of the basename to the end; empty when
the basename has no dot or its only dot is the leading character. -/
def pathExtname (p : String) : String :=
  let b := (pathBasename p).toList
  let revAfter := b.reverse.takeWhile (fun c => c ≠ '.')
  if revAfter.length = b.length then ""
  else if revAfter.length + 1 = b.length then ""
  else String.mk ('.' :: revAfter.reverse)

/-- `path.basename(p, ext)`: basename with the suffix `ext` removed when the
basename ends with `ext` and is not equal to it. -/
def pathBasenameDrop (p ext : String) : String :=
  let b := pathBasename p
  if ext ≠ "" && strEndsWith b ext && b ≠ ext then strDropRight b ext.data.length else b

/-! ## Import-map synthesizer (`imports`) -/

/-- One entry of the internal spec table (`ImportConfig` in the source).
Optional string fields that the source tests with JS truthiness
(`imp.baseName`, `imp.subpath`) are embedded as strings with `""` for
absent, since `""` and `undefined` are both falsy there. -/
structure ImportConfig where
  name : String
  version : Option String := none
  deps : List String := []
  externalAll : Bool := false
  externalList : Option (List String) := none
  markAllExternal : Bool := false
  baseName : String := ""
  subpath : String := ""
deriving DecidableEq

/-- The lock-file metadata stored at index 2 of a `bun.lock` package entry:
peer-dependency names and the subset marked optional in
`peerDependenciesMeta`. -/
structure LockMetadata where
  peerDependencies : List String
  optionalPeers : List String
deriving DecidableEq

/-- A parsed `bun.lock`: package name to the (optional) metadata element. -/
structure BunLock where
  packages : List (String × Option LockMetadata)
deriving DecidableEq

/-- A parsed `package.json` restricted to what the module reads: the
`dependencies` object (string version ranges; the source skips non-string
entries, which the typed embedding has none of). -/
structure PackageJson where
  dependencies : List (String × String)
deriving DecidableEq

/-- The result object: the `imports` map of the import map. -/
structure ImportMap where
  imports : List (String × String)
deriving DecidableEq

/-- `getCleanVersion`: strip one leading `~` or `^` (the regex
`replace(/^[~^]/, '')`). -/
def getCleanVersion (version : String) : String :=
  if strStartsWith version "~" || strStartsWith version "^" then strDrop version 1 else version

/-- JS truthiness of `dependencies[name]`: a binding exists and is a
non-empty string. -/
def depVersionTruthy (deps : List (String × String)) (name : String) : Bool :=
  match lookupStr deps name with
  | some v => v ≠ ""
  | none => false

/-- The peer-dependency names collected for `name` from the lock file:
non-optional peers that are themselves truthy in `dependencies`. -/
def peerDepsFor (deps : List (String × String)) (lock : Option BunLock) (name : String) :
    List String :=
  match lock with
  | none => []
  | some l =>
    match lookupStr l.packages name with
    | some (some md) =>
      md.peerDependencies.filter (fun p => !(md.optionalPeers.contains p) && depVersionTruthy deps p)
    | _ => []

/-- First loop of `imports`: one `ImportConfig` per direct dependency,
keyed by the package name. -/
def topLevelConfigs (deps : List (String × String)) (lock : Option BunLock) :
    List (String × ImportConfig) :=
  deps.foldl
    (fun acc nv =>
      upsert acc nv.1
        { name := nv.1
          version := some (getCleanVersion nv.2)
          deps := peerDepsFor deps lock nv.1 })
    []

/-- The `console.warn` line emitted when a requested subpath's base package
has no (truthy) version in the manifest. -/
def warnNoVersion (baseName subpath : String) : String :=
  "No version found for base package \"" ++ baseName ++ "\" of subpath \"" ++ subpath ++
    "\". Skipping."

/-- One step of the `subpaths.forEach` loop, configuration component: split
the specifier on `/`, take the FIRST segment as base name, and add a config
keyed by the full specifier when the manifest has a truthy version for that
base; otherwise leave the table unchanged. -/
def subpathCfgStep (deps : List (String × String)) (lock : Option BunLock)
    (acc : List (String × ImportConfig)) (subpath : String) : List (String × ImportConfig) :=
  let parts := strSplitSlash subpath
  let baseName := parts.headD ""
  match lookupStr deps baseName with
  | none => acc
  | some vs =>
    if vs = "" then acc
    else
      upsert acc subpath
        { name := subpath
          version := some (getCleanVersion vs)
          deps := peerDepsFor deps lock baseName
          baseName := baseName
          subpath := strIntercalate "/" parts.tail }

/-- One step of the `subpaths.forEach` loop, diagnostic component: the
warnings the step emits (exactly one when the base version is falsy). -/
def subpathWarn (deps : List (String × String)) (subpath : String) : List String :=
  let baseName := (strSplitSlash subpath).headD ""
  if depVersionTruthy deps baseName then [] else [warnNoVersion baseName subpath]

/-- Base name used by the two passes: an explicitly recorded `baseName`
wins; else scoped names (`@...`) take two `/`-segments, others the first. -/
def depBaseName (depName : String) : String :=
  if strStartsWith depName "@" then strIntercalate "/" ((strSplitSlash depName).take 2)
  else (strSplitSlash depName).headD ""

/-- `imp.baseName || (imp.name.startsWith("@") ? ... : ...)`. -/
def baseNameOf (imp : ImportConfig) : String :=
  if imp.baseName ≠ "" then imp.baseName else depBaseName imp.name

/-- JS truthiness of the optional `version` field. -/
def optTruthy : Option String → Bool
  | some s => s ≠ ""
  | none => false

/-- JS falsiness of `versionMap[b]`: missing, or the empty string. -/
def vmEntryFalsy (vm : List (String × String)) (b : String) : Bool :=
  match lookupStr vm b with
  | some s => s = ""
  | none => true

/-- First pass: populate the base-name to version table
(`!versionMap[baseName] || imp.version` guard, `imp.version ?? "latest"`
value). -/
def buildVersionMap (cfgs : List (String × ImportConfig)) : List (String × String) :=
  cfgs.foldl
    (fun vm kv =>
      let b := baseNameOf kv.2
      if vmEntryFalsy vm b || optTruthy kv.2.version then upsert vm b (kv.2.version.getD "latest")
      else vm)
    []

/-- `versionMap[baseName] || 'latest'`. -/
def resolvedVersion (vm : List (String × String)) (b : String) : String :=
  match lookupStr vm b with
  | some v => if v ≠ "" then v else "latest"
  | none => "latest"

/-- `filter((value, index, self) => self.indexOf(value) === index)`:
keep first occurrences. -/
def dedupKeepFirst (l : List String) : List String :=
  l.foldl (fun acc x => if acc.contains x then acc else acc ++ [x]) []

/-- The `external=` query fragment.  `imp.external` truthiness covers both
the boolean and the (possibly empty, still truthy) array form; it is
suppressed under the `*` prefix.  The generator itself never sets these
fields, but the logic is embedded as written. -/
def externalQuery (cfgs : List (String × ImportConfig)) (key : String) (imp : ImportConfig) :
    List String :=
  if (imp.externalAll || imp.externalList.isSome) && !imp.markAllExternal then
    let externals :=
      match imp.externalList with
      | some l => l
      | none =>
        dedupKeepFirst
          ((cfgs.filter (fun kv => kv.1 ≠ key)).map (fun kv => (strSplitSlash kv.2.name).headD ""))
    if externals ≠ [] then ["external=" ++ strIntercalate "," externals] else []
  else []

/-- The `deps=` query fragment listing each recorded peer with its resolved
version. -/
def depsQuery (vm : List (String × String)) (imp : ImportConfig) : List String :=
  if imp.deps ≠ [] then
    ["deps=" ++
      strIntercalate ","
        (imp.deps.map (fun depName => depName ++ "@" ++ resolvedVersion vm (depBaseName depName)))]
  else []

/-- Second pass, per entry: the CDN URL for one spec.  The address starts
with the fixed CDN origin, then `base@version/subpath` for subpath specs or
`name@version` for top-level specs, then the query fragments (with the `&`
delimiter and trailing `/` for keys ending in `/`). -/
def buildUrl (isDev : Bool) (cfgs : List (String × ImportConfig)) (vm : List (String × String))
    (key : String) (imp : ImportConfig) : String :=
  let b := baseNameOf imp
  let version := resolvedVersion vm b
  let starPfx := if imp.markAllExternal then "*" else ""
  let url0 :=
    if imp.subpath ≠ "" then "https://esm.sh/" ++ (starPfx ++ b ++ "@" ++ version ++ "/" ++ imp.subpath)
    else "https://esm.sh/" ++ (starPfx ++ imp.name ++ "@" ++ version)
  let queryParts :=
    externalQuery cfgs key imp ++ depsQuery vm imp ++ (if isDev then ["dev"] else [])
  let pp := if strEndsWith key "/" then "&" else "?"
  let ps := if strEndsWith key "/" then "/" else ""
  if queryParts ≠ [] then url0 ++ (pp ++ strIntercalate "&" queryParts ++ ps) else url0

/-- Second pass over the whole table: record each URL under its specifier
key. -/
def urlPass (isDev : Bool) (cfgs : List (String × ImportConfig)) : List (String × String) :=
  let vm := buildVersionMap cfgs
  cfgs.foldl (fun m kv => upsert m kv.1 (buildUrl isDev cfgs vm kv.1 kv.2)) []

/-- The exported `imports` function (the import-map generator), embedded as
a function of the ambient mode flag and its explicit arguments; a `null`
manifest returns an empty map.  The branch that loads `package.json` and
`bun.lock` from the working directory is outside the model: callers here
always supply the manifest.  `console.warn` diagnostics are returned as the
second component. -/
def imports (isDev : Bool) (subpaths : List String) (pkgJson : Option PackageJson)
    (lockFile : Option BunLock) : ImportMap × List String :=
  match pkgJson with
  | none => (⟨[]⟩, [])
  | some pj =>
    let deps := pj.dependencies
    let start : List (String × ImportConfig) × List String := (topLevelConfigs deps lockFile, [])
    let res :=
      subpaths.foldl
        (fun acc s => (subpathCfgStep deps lockFile acc.1 s, acc.2 ++ subpathWarn deps s)) start
    (⟨urlPass isDev res.1⟩, res.2)

/-! ## Asset pipeline (`buildScript`, `buildStyle`, `buildAsset`) -/

/-- Bytes or UTF-8 text stored in the caches; the `TextEncoder` step is
embedded as the `text` constructor (the byte-level identity of the encoding
is immaterial to the properties proved here). -/
inductive StoredContent where
  | bytes (bs : List Nat)
  | text (s : String)
deriving DecidableEq

/-- An entry of the `buildCache` map (keyed by original source path). -/
structure BuildCacheEntry where
  outputPath : String
  content : StoredContent
deriving DecidableEq

/-- An entry of the `builtAssets` map (keyed by virtual output path). -/
structure ServedAsset where
  content : StoredContent
  contentType : String
deriving DecidableEq

/-- The two process-wide cache maps. -/
structure PipelineState where
  buildCache : List (String × BuildCacheEntry)
  builtAssets : List (String × ServedAsset)
deriving DecidableEq

/-- The empty caches (process start / after `clearCaches`). -/
def initState : PipelineState := { buildCache := [], builtAssets := [] }

/-- One output artifact of a bundler invocation. -/
structure BuildOutput where
  path : String
  kind : String
  mime : Option String
  content : List Nat
deriving DecidableEq

/-- The result object of a successful bundler invocation. -/
structure BuildResult where
  outputs : List BuildOutput
deriving DecidableEq

/-- The configuration record `buildScript` passes to the bundler. -/
structure BuildConfig where
  entrypoints : List String
  minify : Bool
  target : String
  sourcemap : String
  external : List String
  defineNodeEnv : String
  namingEntry : String
  namingChunk : String
  namingAsset : String
deriving DecidableEq

/-- The result of a PostCSS run: the css text and the (optional, stringified)
source map. -/
structure PostcssResult where
  css : String
  map : Option String
deriving DecidableEq

/-- A `BunFile` argument of `buildAsset`: its `name`, the result of
`exists()` and the bytes of `arrayBuffer()`. -/
structure BunFile where
  name : String
  fileExists : Bool
  content : List Nat
deriving DecidableEq

/-- The ambient mode plus all host-runtime oracles the pipeline calls out
to.  `resolve` is `path.resolve(process.cwd(), ·)`; `bunBuild` the primary
bundler; `shellBuild` the `Bun.$`-shell fallback invocation on the resolved
entry path; `postcssProcess` takes the css text, the `from` path and
whether a source map was requested (`isDev`); the two digest oracles are
`Bun.CryptoHasher("sha256") ... digest('hex')` on text and raw bytes. -/
structure Env where
  isDev : Bool
  resolve : String → String
  existsSync : String → Bool
  packageJson : Option PackageJson
  bunBuild : BuildConfig → Except String BuildResult
  shellBuild : String → Except String Unit
  readTextFile : String → String
  postcssProcess : String → String → Bool → PostcssResult
  sha256Hex : String → String
  sha256HexBytes : List Nat → String

/-- `getContentType`: MIME type for a (lower-cased) file extension. -/
def getContentType (ext : String) : String :=
  match lowerStr ext with
  | ".jpg" => "image/jpeg"
  | ".jpeg" => "image/jpeg"
  | ".png" => "image/png"
  | ".gif" => "image/gif"
  | ".webp" => "image/webp"
  | ".svg" => "image/svg+xml"
  | ".ico" => "image/x-icon"
  | ".ttf" => "font/ttf"
  | ".otf" => "font/otf"
  | ".woff" => "font/woff"
  | ".woff2" => "font/woff2"
  | ".eot" => "application/vnd.ms-fontobject"
  | ".css" => "text/css"
  | ".js" => "text/javascript"
  | ".json" => "application/json"
  | ".pdf" => "application/pdf"
  | ".mp3" => "audio/mpeg"
  | ".mp4" => "video/mp4"
  | ".webm" => "video/webm"
  | _ => "application/octet-stream"

/-- The `BuildConfig` literal of `buildScript`. -/
def mkBuildConfig (env : Env) (absolutePath : String) (external : List String) : BuildConfig :=
  { entrypoints := [absolutePath]
    minify := !env.isDev
    target := "browser"
    sourcemap := if env.isDev then "linked" else "none"
    external := external
    defineNodeEnv := if env.isDev then "\"development\"" else "\"production\""
    namingEntry := "[name]-[hash].[ext]"
    namingChunk := "[name]-[hash].[ext]"
    namingAsset := "[name]-[hash].[ext]" }

/-- `output.type || getContentType(path.extname(output.path))`. -/
def outputContentType (o : BuildOutput) : String :=
  match o.mime with
  | some t => if t ≠ "" then t else getContentType (pathExtname o.path)
  | none => getContentType (pathExtname o.path)

/-- The loop registering every bundler output under `/basename(output)` in
`builtAssets`. -/
def registerOutputs (st : PipelineState) (outs : List BuildOutput) : PipelineState :=
  outs.foldl
    (fun s o =>
      { s with
        builtAssets :=
          upsert s.builtAssets ("/" ++ pathBasename o.path) ⟨.bytes o.content, outputContentType o⟩ })
    st

/-- The uncached tail of `buildScript`: load the manifest, mark direct
dependencies external, invoke the bundler (with the shell fallback for
diagnostics on failure), register every output, cache and return the
entry-point's virtual path. -/
def buildScriptCore (env : Env) (st : PipelineState) (filePath absolutePath : String) :
    Except String (String × PipelineState) :=
  match env.packageJson with
  | none => .error "package.json not found"
  | some pj =>
    let external := pj.dependencies.map Prod.fst
    match env.bunBuild (mkBuildConfig env absolutePath external) with
    | .error e =>
      match env.shellBuild absolutePath with
      | .error fe => .error ("Build failed for " ++ filePath ++ ": " ++ fe)
      | .ok _ => .error ("Build failed for " ++ filePath ++ ": " ++ e)
    | .ok result =>
      match result.outputs.find? (fun o => o.kind == "entry-point") with
      | none => .error ("No entry-point output found for " ++ filePath)
      | some mainOutput =>
        let st1 := registerOutputs st result.outputs
        let outputPath := "/" ++ pathBasename mainOutput.path
        let st2 :=
          { st1 with
            buildCache := upsert st1.buildCache filePath ⟨outputPath, .bytes mainOutput.content⟩ }
        .ok (outputPath, st2)

/-- `buildScript`: argument validation, existence check, production cache
hit, then the uncached tail. -/
def buildScript (env : Env) (st : PipelineState) (filePath : String) :
    Except String (String × PipelineState) :=
  if filePath = "" then .error "File path is required"
  else
    let absolutePath := env.resolve filePath
    if !env.existsSync absolutePath then .error ("Script not found: " ++ filePath)
    else
      match env.isDev, lookupStr st.buildCache filePath with
      | false, some entry => .ok (entry.outputPath, st)
      | _, _ => buildScriptCore env st filePath absolutePath

/-- The PostCSS result for a style source (`postcss([autoprefixer,
tailwind]).process(cssContent, ...)` on the text of the resolved file, with
a source map requested exactly in development). -/
def stylePostcss (env : Env) (absolutePath : String) : PostcssResult :=
  env.postcssProcess (env.readTextFile absolutePath) absolutePath env.isDev

/-- The fingerprinted virtual path of a style build: `/` then the basename
minus the lower-cased extension (`baseName`), `-`, the first 8 characters
of the SHA-256 hex digest of the processed css (`hash`), then `.css`. -/
def styleOutputPath (env : Env) (absolutePath : String) : String :=
  "/" ++ pathBasenameDrop absolutePath (lowerStr (pathExtname absolutePath)) ++ "-" ++
    strTake (env.sha256Hex (stylePostcss env absolutePath).css) 8 ++ ".css"

/-- The uncached tail of `buildStyle`: run PostCSS, reject empty output,
fingerprint the css with the first 8 hex digest characters, in development
register the source map and append the `sourceMappingURL` comment, then
cache and register the css. -/
def buildStyleCore (env : Env) (st : PipelineState) (filePath absolutePath : String) :
    Except String (String × PipelineState) :=
  let result := stylePostcss env absolutePath
  if result.css = "" then .error ("PostCSS processing returned empty CSS for " ++ absolutePath)
  else
    let finalCss := result.css
    let outputPath := styleOutputPath env absolutePath
    let contentType := "text/css"
    match env.isDev, result.map with
    | true, some m =>
      let sourceMapPath := outputPath ++ ".map"
      let st1 :=
        { st with builtAssets := upsert st.builtAssets sourceMapPath ⟨.text m, "application/json"⟩ }
      let finalCss2 := finalCss ++ "\n/*# sourceMappingURL=" ++ pathBasename sourceMapPath ++ " */"
      let st2 := { st1 with buildCache := upsert st1.buildCache filePath ⟨outputPath, .text finalCss2⟩ }
      let st3 := { st2 with builtAssets := upsert st2.builtAssets outputPath ⟨.text finalCss2, contentType⟩ }
      .ok (outputPath, st3)
    | _, _ =>
      let st1 := { st with buildCache := upsert st.buildCache filePath ⟨outputPath, .text finalCss⟩ }
      let st2 := { st1 with builtAssets := upsert st1.builtAssets outputPath ⟨.text finalCss, contentType⟩ }
      .ok (outputPath, st2)

/-- `buildStyle`: argument validation, existence check, production cache
hit, then the uncached tail. -/
def buildStyle (env : Env) (st : PipelineState) (filePath : String) :
    Except String (String × PipelineState) :=
  if filePath = "" then .error "File path is required"
  else
    let absolutePath := env.resolve filePath
    if !env.existsSync absolutePath then .error ("Style not found: " ++ filePath)
    else
      match env.isDev, lookupStr st.buildCache filePath with
      | false, some entry => .ok (entry.outputPath, st)
      | _, _ => buildStyleCore env st filePath absolutePath

/-- The fingerprinted virtual path of a static asset: `/` then the basename
minus the lower-cased extension, `-`, the first 8 characters of the SHA-256
hex digest of the raw bytes, then the lower-cased extension. -/
def assetOutputPath (env : Env) (f : BunFile) : String :=
  "/" ++ pathBasenameDrop f.name (lowerStr (pathExtname f.name)) ++ "-" ++
    strTake (env.sha256HexBytes f.content) 8 ++ lowerStr (pathExtname f.name)

/-- The MIME type of a static asset, from its lower-cased extension. -/
def assetContentType (f : BunFile) : String :=
  getContentType (lowerStr (pathExtname f.name))

/-- `buildAsset`: a missing argument returns `''`; a file whose `name` is
falsy raises; a non-existing file raises; otherwise production cache hit or
fingerprint-and-register of the raw bytes. -/
def buildAsset (env : Env) (st : PipelineState) (file : Option BunFile) :
    Except String (String × PipelineState) :=
  match file with
  | none => .ok ("", st)
  | some f =>
    let filePath := f.name
    if filePath = "" then .error "BunFile object must have a name property"
    else if !f.fileExists then .error ("Asset not found: " ++ filePath)
    else
      match env.isDev, lookupStr st.buildCache filePath with
      | false, some entry => .ok (entry.outputPath, st)
      | _, _ =>
        let content := f.content
        let outputPath := assetOutputPath env f
        let contentType := assetContentType f
        let st1 := { st with buildCache := upsert st.buildCache filePath ⟨outputPath, .bytes content⟩ }
        let st2 := { st1 with builtAssets := upsert st1.builtAssets outputPath ⟨.bytes content, contentType⟩ }
        .ok (outputPath, st2)

/-! ## Request dispatch (`serve`'s `fetch`) -/

/-- A request as the dispatch logic sees it: the URL pathname and the
header list. -/
structure HttpRequest where
  urlPath : String
  headers : List (String × String)
deriving DecidableEq

/-- A response object: status, status text, headers and the (fully read)
body. -/
structure ResponseObj where
  status : Nat
  statusText : String
  headers : List (String × String)
  body : StoredContent
deriving DecidableEq

/-- The polymorphic handler return value: a pre-built response, a string, an
async generator of string chunks (embedded as the list of chunks it yields),
or a plain value serialized by `JSON.stringify` (embedded as the serialized
text, since serialization is a host-runtime function). -/
inductive HandlerResponse where
  | resp (r : ResponseObj)
  | str (s : String)
  | stream (chunks : List String)
  | jsonValue (serialized : String)

/-- Case-insensitive header-name comparison of the `Headers` API. -/
def headerKeyMatches (a b : String) : Bool :=
  lowerStr a == lowerStr b

/-- `Headers.get`. -/
def headerGet (hs : List (String × String)) (k : String) : Option String :=
  match hs with
  | [] => none
  | kv :: rest => if headerKeyMatches kv.1 k then some kv.2 else headerGet rest k

/-- `Headers.set`: replace the first matching header in place, else append. -/
def headerSet (hs : List (String × String)) (k v : String) : List (String × String) :=
  match hs with
  | [] => [(k, v)]
  | kv :: rest => if headerKeyMatches kv.1 k then (kv.1, v) :: rest else kv :: headerSet rest k v

/-- The request id used for the request: the incoming `X-Request-ID` header
when truthy, else the freshly generated id (`generateRequestId()` embedded
as the oracle value `genId`). -/
def requestIdOf (genId : String) (req : HttpRequest) : String :=
  match headerGet req.headers "X-Request-ID" with
  | some s => if s ≠ "" then s else genId
  | none => genId

/-- The mutation of the incoming request's headers: the generated id is
written back only when the header was absent or falsy. -/
def stampRequest (genId : String) (req : HttpRequest) : HttpRequest :=
  match headerGet req.headers "X-Request-ID" with
  | some s =>
    if s ≠ "" then req else { req with headers := headerSet req.headers "X-Request-ID" genId }
  | none => { req with headers := headerSet req.headers "X-Request-ID" genId }

/-- The `fetch` dispatch of `serve`: in-memory asset match first, then the
user handler's polymorphic result.  The streamed branch's body is the
in-order concatenation of the yielded chunks (each chunk is encoded and
enqueued as it is produced; the fully read body is their concatenation). -/
def fetchResponse (isDev : Bool) (builtAssets : List (String × ServedAsset)) (genId : String)
    (handler : HttpRequest → HandlerResponse) (req : HttpRequest) : ResponseObj :=
  let requestId := requestIdOf genId req
  let req1 := stampRequest genId req
  match lookupStr builtAssets req.urlPath with
  | some asset =>
    { status := 200
      statusText := ""
      headers :=
        [("Content-Type", asset.contentType),
         ("Cache-Control", if isDev then "no-cache" else "public, max-age=31536000, immutable")]
      body := asset.content }
  | none =>
    match handler req1 with
    | .resp r => { r with headers := headerSet r.headers "X-Request-ID" requestId }
    | .str s =>
      { status := 200
        statusText := ""
        headers := [("Content-Type", "text/html; charset=utf-8"), ("X-Request-ID", requestId)]
        body := .text s }
    | .stream chunks =>
      { status := 200
        statusText := ""
        headers :=
          [("Content-Type", "text/html; charset=utf-8"), ("Transfer-Encoding", "chunked"),
           ("X-Request-ID", requestId)]
        body := .text (strIntercalate "" chunks) }
    | .jsonValue s =>
      { status := 200
        statusText := ""
        headers := [("Content-Type", "application/json")]
        body := .text s }

/-! ## Concrete fixtures

Closed environments and states used to instantiate the theorems below on
concrete inputs. -/

/-- A fixed 64-character hex digest standing in for a SHA-256 hex digest. -/
def hexDigest64 : String :=
  "0123456789abcdef0123456789abcdef0123456789abcdef0123456789abcdef"

/-- A production-mode environment in which every host call succeeds: the
bundler emits one entry-point `app-ab12cd34.js`, PostCSS is the identity on
the css text, and every digest is `hexDigest64`. -/
def envProd : Env :=
  { isDev := false
    resolve := fun p => p
    existsSync := fun _ => true
    packageJson := some ⟨[]⟩
    bunBuild := fun _ => .ok ⟨[⟨"app-ab12cd34.js", "entry-point", some "text/javascript", [1, 2]⟩]⟩
    shellBuild := fun _ => .ok ()
    readTextFile := fun _ => "p color:red"
    postcssProcess := fun c _ _ => ⟨c, none⟩
    sha256Hex := fun _ => hexDigest64
    sha256HexBytes := fun _ => hexDigest64 }

/-- A production-mode environment whose build, transform and digest oracles
all differ from `envProd` (and whose bundler fails outright), used to show
that a cached second call consults none of them. -/
def envRebuildTrap : Env :=
  { envProd with
    bunBuild := fun _ => .error "trap: bundler invoked again"
    shellBuild := fun _ => .error "trap"
    readTextFile := fun _ => "trap"
    postcssProcess := fun _ _ _ => ⟨"trap", none⟩
    sha256Hex := fun _ => "trap"
    sha256HexBytes := fun _ => "trap" }

/-- `envProd` with a filesystem on which no path exists. -/
def envNoFile : Env :=
  { envProd with existsSync := fun _ => false }

/-- `envProd` with a primary bundler failing with `ORIG` and a fallback
shell build failing with `FBERR`. -/
def envFallbackBoth : Env :=
  { envProd with bunBuild := fun _ => .error "ORIG", shellBuild := fun _ => .error "FBERR" }

/-- `envProd` with a primary bundler failing with `ORIG` and a succeeding
fallback shell build. -/
def envFallbackOk : Env :=
  { envProd with bunBuild := fun _ => .error "ORIG" }

/-- The caches after `buildScript envProd initState "app.ts"`. -/
def stScript1 : PipelineState :=
  { buildCache := [("app.ts", ⟨"/app-ab12cd34.js", .bytes [1, 2]⟩)]
    builtAssets := [("/app-ab12cd34.js", ⟨.bytes [1, 2], "text/javascript"⟩)] }

/-- The caches after `buildStyle envProd initState "style.css"`. -/
def stStyle1 : PipelineState :=
  { buildCache := [("style.css", ⟨"/style-01234567.css", .text "p color:red"⟩)]
    builtAssets := [("/style-01234567.css", ⟨.text "p color:red", "text/css"⟩)] }

/-- The caches after `buildAsset envProd initState` on the `logo.png` file. -/
def stAsset1 : PipelineState :=
  { buildCache := [("logo.png", ⟨"/logo-01234567.png", .bytes [5]⟩)]
    builtAssets := [("/logo-01234567.png", ⟨.bytes [5], "image/png"⟩)] }

/-- A manifest with the single dependency `react-dom: ^18.2.0`. -/
def pjReactDom : PackageJson := ⟨[("react-dom", "^18.2.0")]⟩

/-- A manifest with the single scoped dependency `@scope/pkg: ^1.2.3`. -/
def pjScoped : PackageJson := ⟨[("@scope/pkg", "^1.2.3")]⟩

/-- A hexadecimal digit character (the alphabet of a hex digest). -/
def isHexChar (c : Char) : Bool :=
  c.isDigit || ('a' ≤ c && c ≤ 'f') || ('A' ≤ c && c ≤ 'F')

/-! ## General lemmas about the embedded maps -/

theorem lookupStr_upsert_self {α : Type u} (l : List (String × α)) (k : String) (v : α) :
    lookupStr (upsert l k v) k = some v := by
  induction l with
  | nil => simp [upsert, lookupStr]
  | cons kv rest ih =>
    by_cases h : kv.1 = k
    · simp [upsert, h, lookupStr]
    · simp [upsert, h, lookupStr, ih]

theorem registerOutputs_buildCache (st : PipelineState) (outs : List BuildOutput) :
    (registerOutputs st outs).buildCache = st.buildCache := by
  induction outs generalizing st with
  | nil => rfl
  | cons o rest ih => simpa [registerOutputs, List.foldl] using ih _

theorem headerGet_headerSet_self (hs : List (String × String)) (k v : String) :
    headerGet (headerSet hs k v) k = some v := by
  induction hs with
  | nil => simp [headerSet, headerGet, headerKeyMatches]
  | cons kv rest ih =>
    by_cases h : headerKeyMatches kv.1 k
    · simp [headerSet, headerGet, h]
    · simp [headerSet, headerGet, h, ih]

/-! ## Success and cache-hit analysis of the build functions -/

theorem buildScript_ok_cache {env : Env} {st : PipelineState} {p v : String}
    {st' : PipelineState} (hdev : env.isDev = false)
    (h : buildScript env st p = .ok (v, st')) :
    p ≠ "" ∧ ∃ e, lookupStr st'.buildCache p = some e ∧ e.outputPath = v := by
  by_cases hp : p = ""
  · subst hp; simp [buildScript] at h
  · refine ⟨hp, ?_⟩
    rcases hexi : env.existsSync (env.resolve p) with _ | _
    · simp [buildScript, hp, hexi] at h
    · rcases hc : lookupStr st.buildCache p with _ | e
      · rcases hpj : env.packageJson with _ | pj
        · simp [buildScript, buildScriptCore, hp, hexi, hdev, hc, hpj] at h
        · rcases hb : env.bunBuild (mkBuildConfig env (env.resolve p) (pj.dependencies.map Prod.fst))
            with e | result
          · rcases hs : env.shellBuild (env.resolve p) with fe | u <;>
              simp [buildScript, buildScriptCore, hp, hexi, hdev, hc, hpj, hb, hs] at h
          · rcases hf : result.outputs.find? (fun o => o.kind == "entry-point") with _ | mainOut
            · simp [buildScript, buildScriptCore, hp, hexi, hdev, hc, hpj, hb, hf] at h
            · simp [buildScript, buildScriptCore, hp, hexi, hdev, hc, hpj, hb, hf] at h
              obtain ⟨hv, hst⟩ := h
              refine ⟨⟨"/" ++ pathBasename mainOut.path, .bytes mainOut.content⟩, ?_, hv⟩
              rw [← hst]
              exact lookupStr_upsert_self _ _ _
      · simp [buildScript, hp, hexi, hdev, hc] at h
        obtain ⟨hv, hst⟩ := h
        exact ⟨e, by rw [← hst]; exact hc, hv⟩

theorem buildScript_cache_hit {env : Env} {st : PipelineState} {p : String} {e : BuildCacheEntry}
    (hdev : env.isDev = false) (hp : p ≠ "") (hexi : env.existsSync (env.resolve p) = true)
    (hc : lookupStr st.buildCache p = some e) :
    buildScript env st p = .ok (e.outputPath, st) := by
  simp [buildScript, hp, hexi, hdev, hc]

theorem buildStyle_ok_cache {env : Env} {st : PipelineState} {p v : String}
    {st' : PipelineState} (hdev : env.isDev = false)
    (h : buildStyle env st p = .ok (v, st')) :
    p ≠ "" ∧ ∃ e, lookupStr st'.buildCache p = some e ∧ e.outputPath = v := by
  by_cases hp : p = ""
  · subst hp; simp [buildStyle] at h
  · refine ⟨hp, ?_⟩
    rcases hexi : env.existsSync (env.resolve p) with _ | _
    · simp [buildStyle, hp, hexi] at h
    · rcases hc : lookupStr st.buildCache p with _ | e
      · by_cases hcss : (stylePostcss env (env.resolve p)).css = ""
        · simp [buildStyle, buildStyleCore, hp, hexi, hdev, hc, hcss] at h
        · simp [buildStyle, buildStyleCore, hp, hexi, hdev, hc, hcss] at h
          obtain ⟨hv, hst⟩ := h
          exact ⟨⟨styleOutputPath env (env.resolve p),
            .text (stylePostcss env (env.resolve p)).css⟩,
            by rw [← hst]; exact lookupStr_upsert_self _ _ _, hv⟩
      · simp [buildStyle, hp, hexi, hdev, hc] at h
        obtain ⟨hv, hst⟩ := h
        exact ⟨e, by rw [← hst]; exact hc, hv⟩

theorem buildStyle_cache_hit {env : Env} {st : PipelineState} {p : String} {e : BuildCacheEntry}
    (hdev : env.isDev = false) (hp : p ≠ "") (hexi : env.existsSync (env.resolve p) = true)
    (hc : lookupStr st.buildCache p = some e) :
    buildStyle env st p = .ok (e.outputPath, st) := by
  simp [buildStyle, hp, hexi, hdev, hc]

theorem buildAsset_ok_cache {env : Env} {st : PipelineState} {f : BunFile} {v : String}
    {st' : PipelineState} (hdev : env.isDev = false)
    (h : buildAsset env st (some f) = .ok (v, st')) :
    f.name ≠ "" ∧ ∃ e, lookupStr st'.buildCache f.name = some e ∧ e.outputPath = v := by
  by_cases hn : f.name = ""
  · simp [buildAsset, hn] at h
  · refine ⟨hn, ?_⟩
    rcases hfe : f.fileExists with _ | _
    · simp [buildAsset, hn, hfe] at h
    · rcases hc : lookupStr st.buildCache f.name with _ | e
      · simp [buildAsset, hn, hfe, hdev, hc] at h
        obtain ⟨hv, hst⟩ := h
        exact ⟨⟨assetOutputPath env f, .bytes f.content⟩,
          by rw [← hst]; exact lookupStr_upsert_self _ _ _, hv⟩
      · simp [buildAsset, hn, hfe, hdev, hc] at h
        obtain ⟨hv, hst⟩ := h
        exact ⟨e, by rw [← hst]; exact hc, hv⟩

theorem buildAsset_cache_hit {env : Env} {st : PipelineState} {f : BunFile} {e : BuildCacheEntry}
    (hdev : env.isDev = false) (hn : f.name ≠ "") (hfe : f.fileExists = true)
    (hc : lookupStr st.buildCache f.name = some e) :
    buildAsset env st (some f) = .ok (e.outputPath, st) := by
  simp [buildAsset, hn, hfe, hdev, hc]

/-! ## Auxiliary facts about string distinctness -/

theorem scriptMsg_ne_empty_msg (pd : List Char) :
    "File path is required" ≠ "Script not found: " ++ String.mk pd := by
  intro h
  have h2 : (some 'F' : Option Char) = some 'S' := by
    have e1 : ("File path is required").data.get? 0 = some 'F' := rfl
    have e2 : ("Script not found: " ++ String.mk pd).data.get? 0 = some 'S' := rfl
    rw [← e1, ← e2, h]
  exact absurd h2 (by decide)

theorem styleMsg_ne_empty_msg (pd : List Char) :
    "File path is required" ≠ "Style not found: " ++ String.mk pd := by
  intro h
  have h2 : (some 'F' : Option Char) = some 'S' := by
    have e1 : ("File path is required").data.get? 0 = some 'F' := rfl
    have e2 : ("Style not found: " ++ String.mk pd).data.get? 0 = some 'S' := rfl
    rw [← e1, ← e2, h]
  exact absurd h2 (by decide)

theorem scriptMsg_ne_styleMsg (pd : List Char) :
    "Script not found: " ++ String.mk pd ≠ "Style not found: " ++ String.mk pd := by
  intro h
  have h2 : (some 'c' : Option Char) = some 't' := by
    have e1 : ("Script not found: " ++ String.mk pd).data.get? 1 = some 'c' := rfl
    have e2 : ("Style not found: " ++ String.mk pd).data.get? 1 = some 't' := rfl
    rw [← e1, ← e2, h]
  exact absurd h2 (by decide)

/-! ## Claim theorems -/

/-- **C1 counterexample.**  The claim says the Build-class error surfaced by
`buildScript` always carries the original bundler error.  With a primary
bundler failure `ORIG` and a fallback shell-build failure `FBERR`, the
surfaced error message carries `FBERR` and does not contain `ORIG` at all:
the `catch (fallbackError)` block throws the fallback's error, not the
original one. -/
theorem C1_fallback_error_counterexample :
    buildScript envFallbackBoth initState "app.ts" = .error "Build failed for app.ts: FBERR" ∧
    ¬ "ORIG".data <:+: ("Build failed for app.ts: FBERR").data :=
  ⟨rfl, by decide⟩

/-- **C1 (amended).**  When the primary bundler invocation inside
`buildScript` fails with error `e`, `buildScript` always surfaces a
Build-class error (message `Build failed for <path>: ...`); it carries the
original error `e` when the best-effort fallback invocation succeeds, but
when the fallback also fails the surfaced error carries the fallback's
error instead of the original one. -/
theorem C1_amended_build_error (env : Env) (st : PipelineState) (p e : String)
    (pj : PackageJson) (hp : p ≠ "") (hexi : env.existsSync (env.resolve p) = true)
    (hmiss : lookupStr st.buildCache p = none) (hpj : env.packageJson = some pj)
    (hb : env.bunBuild (mkBuildConfig env (env.resolve p) (pj.dependencies.map Prod.fst)) =
      .error e) :
    buildScript env st p =
      .error
        (match env.shellBuild (env.resolve p) with
          | .ok _ => "Build failed for " ++ p ++ ": " ++ e
          | .error fe => "Build failed for " ++ p ++ ": " ++ fe) := by
  rcases hd : env.isDev <;> rcases hs : env.shellBuild (env.resolve p) with fe | u <;>
    simp [buildScript, buildScriptCore, hp, hexi, hd, hmiss, hpj, hb, hs]

/-- **C1 witness.**  The amended statement at the two concrete
environments: fallback failing (`FBERR` propagates) and fallback
succeeding (`ORIG` propagates). -/
theorem C1_amended_build_error_witness :
    buildScript envFallbackBoth initState "app.ts" =
      .error ("Build failed for " ++ "app.ts" ++ ": " ++ "FBERR") ∧
    buildScript envFallbackOk initState "app.ts" =
      .error ("Build failed for " ++ "app.ts" ++ ": " ++ "ORIG") := by
  constructor
  · exact C1_amended_build_error envFallbackBoth initState "app.ts" "ORIG" ⟨[]⟩
      (by decide) rfl rfl rfl rfl
  · exact C1_amended_build_error envFallbackOk initState "app.ts" "ORIG" ⟨[]⟩
      (by decide) rfl rfl rfl rfl

/-- **C2.**  In production mode, after a successful first call of
`buildScript` (resp. `buildStyle`, `buildAsset`) on a path returned `(v,
st2)`, a second call on the same unchanged path — under ANY production
environment whose filesystem still has the file, in particular with
arbitrary (even failing) bundler, transformer and digest oracles, which is
the formal content of "without invoking the bundler or transformer again"
— returns the identical virtual path `v` from the cache and leaves the
caches unchanged. -/
theorem C2_production_cache_hit :
    (∀ (env env2 : Env) (st st2 : PipelineState) (p v : String),
        env.isDev = false → env2.isDev = false →
        env2.existsSync (env2.resolve p) = true →
        buildScript env st p = .ok (v, st2) → buildScript env2 st2 p = .ok (v, st2)) ∧
    (∀ (env env2 : Env) (st st2 : PipelineState) (p v : String),
        env.isDev = false → env2.isDev = false →
        env2.existsSync (env2.resolve p) = true →
        buildStyle env st p = .ok (v, st2) → buildStyle env2 st2 p = .ok (v, st2)) ∧
    (∀ (env env2 : Env) (st st2 : PipelineState) (f f2 : BunFile) (v : String),
        env.isDev = false → env2.isDev = false →
        f2.name = f.name → f2.fileExists = true →
        buildAsset env st (some f) = .ok (v, st2) → buildAsset env2 st2 (some f2) = .ok (v, st2)) := by
  refine ⟨?_, ?_, ?_⟩
  · intro env env2 st st2 p v h1 h2 h3 h4
    obtain ⟨hp, e, hl, he⟩ := buildScript_ok_cache h1 h4
    have hhit := buildScript_cache_hit h2 hp h3 hl
    rwa [he] at hhit
  · intro env env2 st st2 p v h1 h2 h3 h4
    obtain ⟨hp, e, hl, he⟩ := buildStyle_ok_cache h1 h4
    have hhit := buildStyle_cache_hit h2 hp h3 hl
    rwa [he] at hhit
  · intro env env2 st st2 f f2 v h1 h2 hname hfe h4
    obtain ⟨hn, e, hl, he⟩ := buildAsset_ok_cache h1 h4
    have hhit := buildAsset_cache_hit (f := f2) h2 (by rw [hname]; exact hn) hfe
      (by rw [hname]; exact hl)
    rwa [he] at hhit

/-- **C2 witness.**  Concrete first builds under `envProd` fill the caches
(`stScript1`, `stStyle1`, `stAsset1`); the second calls run under
`envRebuildTrap`, whose bundler and transformer oracles all fail or
disagree, and still return the same virtual paths with unchanged state. -/
theorem C2_production_cache_hit_witness :
    buildScript envRebuildTrap stScript1 "app.ts" = .ok ("/app-ab12cd34.js", stScript1) ∧
    buildStyle envRebuildTrap stStyle1 "style.css" = .ok ("/style-01234567.css", stStyle1) ∧
    buildAsset envRebuildTrap stAsset1 (some ⟨"logo.png", true, [5]⟩) =
      .ok ("/logo-01234567.png", stAsset1) := by
  refine ⟨?_, ?_, ?_⟩
  · exact C2_production_cache_hit.1 envProd envRebuildTrap initState stScript1 "app.ts"
      "/app-ab12cd34.js" rfl rfl rfl rfl
  · exact C2_production_cache_hit.2.1 envProd envRebuildTrap initState stStyle1 "style.css"
      "/style-01234567.css" rfl rfl rfl rfl
  · exact C2_production_cache_hit.2.2 envProd envRebuildTrap initState stAsset1
      ⟨"logo.png", true, [5]⟩ ⟨"logo.png", true, [5]⟩ "/logo-01234567.png" rfl rfl rfl rfl rfl

/-- **C5.**  `buildScript ""` (and `buildStyle ""`) fails with the
empty-path message `File path is required` (the InvalidArgument class of
the spec's taxonomy), a non-empty path that does not resolve to an existing
file fails with `Script not found: <p>` / `Style not found: <p>` (the
NotFound class), and the three messages are pairwise distinct, so the two
failure kinds are distinguishable. -/
theorem C5_error_distinction (env : Env) (st : PipelineState) (p : String) (hp : p ≠ "")
    (hexi : env.existsSync (env.resolve p) = false) :
    buildScript env st "" = .error "File path is required" ∧
    buildScript env st p = .error ("Script not found: " ++ p) ∧
    buildStyle env st "" = .error "File path is required" ∧
    buildStyle env st p = .error ("Style not found: " ++ p) ∧
    "File path is required" ≠ "Script not found: " ++ p ∧
    "File path is required" ≠ "Style not found: " ++ p ∧
    "Script not found: " ++ p ≠ "Style not found: " ++ p := by
  obtain ⟨pd⟩ := p
  exact ⟨rfl, by simp [buildScript, hp, hexi], rfl, by simp [buildStyle, hp, hexi],
    scriptMsg_ne_empty_msg pd, styleMsg_ne_empty_msg pd, scriptMsg_ne_styleMsg pd⟩

/-- **C5 witness.**  The distinction at the concrete missing path
`/nonexistent/path.js` on a filesystem with no files. -/
theorem C5_error_distinction_witness :
    buildScript envNoFile initState "" = .error "File path is required" ∧
    buildScript envNoFile initState "/nonexistent/path.js" =
      .error ("Script not found: " ++ "/nonexistent/path.js") ∧
    buildStyle envNoFile initState "" = .error "File path is required" ∧
    buildStyle envNoFile initState "/nonexistent/path.js" =
      .error ("Style not found: " ++ "/nonexistent/path.js") ∧
    "File path is required" ≠ "Script not found: " ++ "/nonexistent/path.js" ∧
    "File path is required" ≠ "Style not found: " ++ "/nonexistent/path.js" ∧
    "Script not found: " ++ "/nonexistent/path.js" ≠
      "Style not found: " ++ "/nonexistent/path.js" :=
  C5_error_distinction envNoFile initState "/nonexistent/path.js" (by decide) rfl

/-- **C7.**  When the user handler returns an async sequence yielding
`A`, `B`, `C` (and the request misses the in-memory asset cache), the
response carries the `Transfer-Encoding: chunked` header and its fully
read body is `ABC`, the in-order concatenation of the yielded chunks. -/
theorem C7_stream_chunked_body (d : Bool) (assets : List (String × ServedAsset))
    (genId : String) (req : HttpRequest) (hmiss : lookupStr assets req.urlPath = none) :
    headerGet (fetchResponse d assets genId (fun _ => .stream ["A", "B", "C"]) req).headers
        "Transfer-Encoding" = some "chunked" ∧
    (fetchResponse d assets genId (fun _ => .stream ["A", "B", "C"]) req).body = .text "ABC" := by
  constructor <;> (simp only [fetchResponse, hmiss]; rfl)

/-- **C7 witness.**  The streamed response at a concrete request. -/
theorem C7_stream_chunked_body_witness :
    headerGet (fetchResponse false [] "gen1" (fun _ => .stream ["A", "B", "C"]) ⟨"/", []⟩).headers
        "Transfer-Encoding" = some "chunked" ∧
    (fetchResponse false [] "gen1" (fun _ => .stream ["A", "B", "C"]) ⟨"/", []⟩).body =
      .text "ABC" :=
  C7_stream_chunked_body false [] "gen1" ⟨"/", []⟩ rfl

/-- **C8 counterexample.**  The claim says every dispatch branch stamps
`X-Request-ID` on the response.  A request that matches the in-memory
cached-asset branch — even one that itself carries an `X-Request-ID`
header — receives a response without any `X-Request-ID` header. -/
theorem C8_request_id_counterexample :
    headerGet
      (fetchResponse false [("/app.js", ⟨.text "x", "text/javascript"⟩)] "gen1"
        (fun _ => .str "page") ⟨"/app.js", [("X-Request-ID", "abc")]⟩).headers
      "X-Request-ID" = none :=
  rfl

/-- **C8 (amended).**  The pre-built-response, string-as-HTML and streamed
branches of `serve`'s dispatch stamp `X-Request-ID` (the request's header
when truthy, a freshly generated id otherwise) on the response; the
JSON-serialization branch and the in-memory cached-asset branch do not set
that header. -/
theorem C8_request_id_amended (d : Bool) (assets : List (String × ServedAsset)) (genId : String)
    (req : HttpRequest) (r : ResponseObj) (s js : String) (chunks : List String)
    (hmiss : lookupStr assets req.urlPath = none) :
    headerGet (fetchResponse d assets genId (fun _ => .resp r) req).headers "X-Request-ID" =
      some (requestIdOf genId req) ∧
    headerGet (fetchResponse d assets genId (fun _ => .str s) req).headers "X-Request-ID" =
      some (requestIdOf genId req) ∧
    headerGet (fetchResponse d assets genId (fun _ => .stream chunks) req).headers "X-Request-ID" =
      some (requestIdOf genId req) ∧
    headerGet (fetchResponse d assets genId (fun _ => .jsonValue js) req).headers "X-Request-ID" =
      none ∧
    (∀ (assets2 : List (String × ServedAsset)) (a : ServedAsset)
        (handler : HttpRequest → HandlerResponse),
      lookupStr assets2 req.urlPath = some a →
      headerGet (fetchResponse d assets2 genId handler req).headers "X-Request-ID" = none) := by
  refine ⟨?_, ?_, ?_, ?_, ?_⟩
  · simp only [fetchResponse, hmiss]
    exact headerGet_headerSet_self _ _ _
  · simp only [fetchResponse, hmiss]; rfl
  · simp only [fetchResponse, hmiss]; rfl
  · simp only [fetchResponse, hmiss]; rfl
  · intro assets2 a handler hhit
    simp only [fetchResponse, hhit]
    rfl

/-- **C8 witness.**  The amended statement at concrete requests: the three
stamping branches return the request's id `abc`; the JSON branch and a
cached-asset hit return no id header. -/
theorem C8_request_id_amended_witness :
    headerGet
      (fetchResponse false [] "gen1" (fun _ => .resp ⟨201, "Created", [("Foo", "bar")], .text "b"⟩)
        ⟨"/x", [("X-Request-ID", "abc")]⟩).headers "X-Request-ID" = some "abc" ∧
    headerGet (fetchResponse false [] "gen1" (fun _ => .str "page")
        ⟨"/x", [("X-Request-ID", "abc")]⟩).headers "X-Request-ID" = some "abc" ∧
    headerGet (fetchResponse false [] "gen1" (fun _ => .stream ["A"])
        ⟨"/x", [("X-Request-ID", "abc")]⟩).headers "X-Request-ID" = some "abc" ∧
    headerGet (fetchResponse false [] "gen1" (fun _ => .jsonValue "1")
        ⟨"/x", [("X-Request-ID", "abc")]⟩).headers "X-Request-ID" = none ∧
    headerGet
      (fetchResponse false [("/x", ⟨.text "y", "text/css"⟩)] "gen1" (fun _ => .str "page")
        ⟨"/x", [("X-Request-ID", "abc")]⟩).headers "X-Request-ID" = none := by
  have h := C8_request_id_amended false [] "gen1" ⟨"/x", [("X-Request-ID", "abc")]⟩
    ⟨201, "Created", [("Foo", "bar")], .text "b"⟩ "page" "1" ["A"] rfl
  exact ⟨h.1, h.2.1, h.2.2.1, h.2.2.2.1,
    h.2.2.2.2 [("/x", ⟨.text "y", "text/css"⟩)] ⟨.text "y", "text/css"⟩ (fun _ => .str "page") rfl⟩

/-- **C10.**  `buildAsset` called with no file argument returns the empty
string without raising and without touching either cache map, while a file
object whose `name` is empty raises the InvalidArgument-class error
`BunFile object must have a name property`; by contrast `buildScript` and
`buildStyle` raise `File path is required` on an empty path. -/
theorem C10_buildAsset_empty_behavior (env : Env) (st : PipelineState) (ex : Bool)
    (bs : List Nat) :
    buildAsset env st none = .ok ("", st) ∧
    buildAsset env st (some ⟨"", ex, bs⟩) = .error "BunFile object must have a name property" ∧
    buildScript env st "" = .error "File path is required" ∧
    buildStyle env st "" = .error "File path is required" :=
  ⟨rfl, rfl, rfl, rfl⟩

/-! ## Lemmas about the import-map passes -/

theorem lookupStr_mem_vals {α : Type u} {l : List (String × α)} {k : String} {v : α}
    (h : lookupStr l k = some v) : v ∈ valsOf l := by
  induction l with
  | nil => simp [lookupStr] at h
  | cons kv rest ih =>
    rw [lookupStr] at h
    by_cases hk : kv.1 = k
    · rw [if_pos hk] at h
      injection h with h
      subst h
      exact List.mem_cons_self _ _
    · rw [if_neg hk] at h
      exact List.mem_cons_of_mem _ (ih h)

theorem mem_upsert_sub {α : Type u} (l : List (String × α)) (k : String) (v : α)
    (x : String × α) (h : x ∈ upsert l k v) : x ∈ l ∨ x.2 = v := by
  induction l with
  | nil =>
    simp only [upsert, List.mem_singleton] at h
    right
    rw [h]
  | cons kv rest ih =>
    simp only [upsert] at h
    by_cases hk : kv.1 = k
    · rw [if_pos hk] at h
      rcases List.mem_cons.mp h with h | h
      · right; rw [h]
      · left; exact List.mem_cons_of_mem _ h
    · rw [if_neg hk] at h
      rcases List.mem_cons.mp h with h | h
      · left; rw [h]; exact List.mem_cons_self _ _
      · rcases ih h with h2 | h2
        · left; exact List.mem_cons_of_mem _ h2
        · right; exact h2

theorem vals_upsert_sub {α : Type u} (l : List (String × α)) (k : String) (v u : α)
    (h : u ∈ valsOf (upsert l k v)) : u ∈ valsOf l ∨ u = v := by
  obtain ⟨x, hx, hxu⟩ := List.mem_map.mp h
  rcases mem_upsert_sub l k v x hx with h2 | h2
  · left; exact List.mem_map.mpr ⟨x, h2, hxu⟩
  · right; rw [← hxu, h2]

theorem buildUrl_pfx (d : Bool) (cfgs : List (String × ImportConfig))
    (vm : List (String × String)) (key : String) (imp : ImportConfig) :
    ∃ t, buildUrl d cfgs vm key imp = "https://esm.sh/" ++ t := by
  simp only [buildUrl]
  split_ifs <;> exact ⟨_, rfl⟩

theorem urlPass_vals_pfx (d : Bool) (cfgs : List (String × ImportConfig)) :
    ∀ u ∈ valsOf (urlPass d cfgs), ∃ t, u = "https://esm.sh/" ++ t := by
  unfold urlPass
  suffices h : ∀ (l : List (String × ImportConfig)) (acc : List (String × String)),
      (∀ u ∈ valsOf acc, ∃ t, u = "https://esm.sh/" ++ t) →
      ∀ u ∈ valsOf
        (l.foldl (fun m kv => upsert m kv.1 (buildUrl d cfgs (buildVersionMap cfgs) kv.1 kv.2)) acc),
        ∃ t, u = "https://esm.sh/" ++ t by
    intro u hu
    exact h cfgs [] (by simp [valsOf]) u hu
  intro l
  induction l with
  | nil => intro acc hacc u hu; exact hacc u hu
  | cons kv rest ih =>
    intro acc hacc u hu
    refine ih _ ?_ u hu
    intro w hw
    rcases vals_upsert_sub _ _ _ _ hw with h2 | h2
    · exact hacc w h2
    · subst h2
      exact buildUrl_pfx d cfgs (buildVersionMap cfgs) kv.1 kv.2

theorem subpathsFold_eq (deps : List (String × String)) (lock : Option BunLock)
    (l : List String) (c : List (String × ImportConfig)) (ws : List String) :
    l.foldl (fun acc s => (subpathCfgStep deps lock acc.1 s, acc.2 ++ subpathWarn deps s)) (c, ws) =
      (l.foldl (subpathCfgStep deps lock) c, ws ++ (l.map (subpathWarn deps)).flatten) := by
  induction l generalizing c ws with
  | nil => simp
  | cons s rest ih => simp [List.foldl_cons, ih, List.append_assoc]

theorem subpathCfgStep_skip (deps : List (String × String)) (lock : Option BunLock)
    (acc : List (String × ImportConfig)) (s : String)
    (hb : depVersionTruthy deps ((strSplitSlash s).headD "") = false) :
    subpathCfgStep deps lock acc s = acc := by
  simp only [List.headD_eq_head?_getD] at hb
  rcases h : lookupStr deps ((strSplitSlash s).head?.getD "") with _ | vs
  · simp [subpathCfgStep, h]
  · have hvs : vs = "" := by simpa [depVersionTruthy, h] using hb
    simp [subpathCfgStep, h, hvs]

/-! ## Remaining claim theorems -/

/-- **C3.**  Every address recorded by the import-map generator begins with
the CDN origin `https://esm.sh/` (the URL is formed as
`https://esm.sh/<base>@<version>[/<subpath>]` plus query fragments), and on
the concrete input `["react-dom/client"]` with manifest dependency
`react-dom: ^18.2.0`, the entry under key `react-dom/client` begins with
`https://esm.sh/react-dom@18.2.0/client` in both modes. -/
theorem C3_cdn_url_form :
    (∀ (d : Bool) (subpaths : List String) (pj : PackageJson) (lock : Option BunLock)
        (key url : String),
        lookupStr (imports d subpaths (some pj) lock).1.imports key = some url →
        ∃ t, url = "https://esm.sh/" ++ t) ∧
    (∀ d : Bool, ∃ url,
        lookupStr (imports d ["react-dom/client"] (some pjReactDom) none).1.imports
          "react-dom/client" = some url ∧
        strStartsWith url "https://esm.sh/react-dom@18.2.0/client" = true) := by
  constructor
  · intro d subpaths pj lock key url h
    simp only [imports] at h
    exact urlPass_vals_pfx d _ url (lookupStr_mem_vals h)
  · intro d
    rcases d
    · exact ⟨"https://esm.sh/react-dom@18.2.0/client", rfl, rfl⟩
    · exact ⟨"https://esm.sh/react-dom@18.2.0/client?dev", rfl, rfl⟩

/-- **C3 witness.**  The general prefix property applied at the concrete
`react-dom/client` entry of the production-mode map. -/
theorem C3_cdn_url_form_witness :
    ∃ t, "https://esm.sh/react-dom@18.2.0/client" = "https://esm.sh/" ++ t :=
  C3_cdn_url_form.1 false ["react-dom/client"] pjReactDom none "react-dom/client"
    "https://esm.sh/react-dom@18.2.0/client" rfl

/-- **C4 counterexample.**  The claim says scoped (`@`-prefixed) specifiers
are split into a two-segment base name when a requested subpath is split
and its version looked up.  Requesting `@scope/pkg/sub` with
`@scope/pkg: ^1.2.3` in the manifest refutes this: the generator takes only
the first segment `@scope` as the base, finds no version for it, and skips
the specifier entirely — the emitted diagnostic names base `@scope`, not
`@scope/pkg`. -/
theorem C4_scoped_split_counterexample :
    lookupStr (imports false ["@scope/pkg/sub"] (some pjScoped) none).1.imports
      "@scope/pkg/sub" = none ∧
    (imports false ["@scope/pkg/sub"] (some pjScoped) none).2 =
      [warnNoVersion "@scope" "@scope/pkg/sub"] :=
  ⟨rfl, rfl⟩

/-- **C4 (amended).**  The two version-map passes treat a scoped package
name as a two-segment base (so the top-level scoped dependency
`@scope/pkg` resolves to `https://esm.sh/@scope/pkg@1.2.3`), but the
subpath-splitting step takes only the FIRST `/`-segment as the base name,
so a requested scoped subpath fails its manifest version lookup and is
skipped with a diagnostic naming the one-segment base. -/
theorem C4_scoped_base_amended :
    lookupStr (imports false [] (some pjScoped) none).1.imports "@scope/pkg" =
      some "https://esm.sh/@scope/pkg@1.2.3" ∧
    (imports false ["@scope/pkg/sub"] (some pjScoped) none).1.imports =
      (imports false [] (some pjScoped) none).1.imports ∧
    (imports false ["@scope/pkg/sub"] (some pjScoped) none).2 =
      [warnNoVersion "@scope" "@scope/pkg/sub"] :=
  ⟨rfl, rfl, rfl⟩

/-- **C6.**  A successful fresh `buildStyle` returns the virtual path
`/<basename>-<h>.css` where `<basename>` is the source basename minus its
lower-cased extension and `<h>` is the first 8 characters of the SHA-256
hex digest of the processed css; under the stated facts about the digest
oracle (64-character hex output, as a SHA-256 hex digest has), `<h>` is 8
hex characters long; and the asset registered under the returned path has
content type `text/css`. -/
theorem C6_style_output_path (env : Env) (st : PipelineState) (p v : String)
    (st' : PipelineState)
    (hlen : (env.sha256Hex (stylePostcss env (env.resolve p)).css).data.length = 64)
    (hhex : (env.sha256Hex (stylePostcss env (env.resolve p)).css).data.all isHexChar = true)
    (hmiss : lookupStr st.buildCache p = none)
    (hok : buildStyle env st p = .ok (v, st')) :
    v = "/" ++ pathBasenameDrop (env.resolve p) (lowerStr (pathExtname (env.resolve p))) ++ "-" ++
        strTake (env.sha256Hex (stylePostcss env (env.resolve p)).css) 8 ++ ".css" ∧
    (strTake (env.sha256Hex (stylePostcss env (env.resolve p)).css) 8).data.length = 8 ∧
    (strTake (env.sha256Hex (stylePostcss env (env.resolve p)).css) 8).data.all isHexChar = true ∧
    ∃ a, lookupStr st'.builtAssets v = some a ∧ a.contentType = "text/css" := by
  have hv : v = styleOutputPath env (env.resolve p) ∧
      ∃ a, lookupStr st'.builtAssets v = some a ∧ a.contentType = "text/css" := by
    by_cases hp : p = ""
    · subst hp; simp [buildStyle] at hok
    · rcases hexi : env.existsSync (env.resolve p) with _ | _
      · simp [buildStyle, hp, hexi] at hok
      · by_cases hcss : (stylePostcss env (env.resolve p)).css = ""
        · rcases hd : env.isDev <;>
            simp [buildStyle, buildStyleCore, hp, hexi, hd, hmiss, hcss] at hok
        · rcases hd : env.isDev
          · simp [buildStyle, buildStyleCore, hp, hexi, hd, hmiss, hcss] at hok
            obtain ⟨hv, hst⟩ := hok
            subst hv
            exact ⟨rfl, ⟨_, by rw [← hst]; exact lookupStr_upsert_self _ _ _, rfl⟩⟩
          · rcases hm : (stylePostcss env (env.resolve p)).map with _ | m <;>
              simp [buildStyle, buildStyleCore, hp, hexi, hd, hmiss, hcss, hm] at hok <;>
              obtain ⟨hv, hst⟩ := hok <;> subst hv
            · exact ⟨rfl, ⟨_, by rw [← hst]; exact lookupStr_upsert_self _ _ _, rfl⟩⟩
            · exact ⟨rfl, ⟨_, by rw [← hst]; exact lookupStr_upsert_self _ _ _, rfl⟩⟩
  refine ⟨hv.1, ?_, ?_, hv.2⟩
  · show ((env.sha256Hex (stylePostcss env (env.resolve p)).css).data.take 8).length = 8
    rw [List.length_take, hlen]
    decide
  · show ((env.sha256Hex (stylePostcss env (env.resolve p)).css).data.take 8).all isHexChar = true
    rw [List.all_eq_true] at hhex ⊢
    intro c hc
    exact hhex c (List.take_subset _ _ hc)

/-- **C6 witness.**  The style build of `style.css` under `envProd`: the
returned path is `/style-01234567.css` and the registered asset is
`text/css`. -/
theorem C6_style_output_path_witness :
    ("/style-01234567.css" : String) =
      "/" ++ pathBasenameDrop (envProd.resolve "style.css")
          (lowerStr (pathExtname (envProd.resolve "style.css"))) ++ "-" ++
        strTake (envProd.sha256Hex (stylePostcss envProd (envProd.resolve "style.css")).css) 8 ++
        ".css" ∧
    (strTake (envProd.sha256Hex (stylePostcss envProd (envProd.resolve "style.css")).css)
      8).data.length = 8 ∧
    (strTake (envProd.sha256Hex (stylePostcss envProd (envProd.resolve "style.css")).css)
      8).data.all isHexChar = true ∧
    ∃ a, lookupStr stStyle1.builtAssets "/style-01234567.css" = some a ∧
      a.contentType = "text/css" :=
  C6_style_output_path envProd initState "style.css" "/style-01234567.css" stStyle1
    rfl (by decide) rfl rfl

/-- **C9.**  A requested subpath specifier whose base package (its first
`/`-segment) has no truthy version in the manifest is skipped: the
generated import map is exactly the one generated without that specifier
(so every resolvable specifier is still resolved and returned), and the
skip emits the `No version found ...` diagnostic instead of failing. -/
theorem C9_skip_unresolved_subpath (d : Bool) (pre post : List String) (s : String)
    (pj : PackageJson) (lock : Option BunLock)
    (hb : depVersionTruthy pj.dependencies ((strSplitSlash s).headD "") = false) :
    (imports d (pre ++ s :: post) (some pj) lock).1 = (imports d (pre ++ post) (some pj) lock).1 ∧
    warnNoVersion ((strSplitSlash s).headD "") s ∈ (imports d (pre ++ s :: post) (some pj) lock).2 := by
  constructor
  · simp only [imports]
    rw [subpathsFold_eq, subpathsFold_eq]
    have hc : (pre ++ s :: post).foldl (subpathCfgStep pj.dependencies lock)
          (topLevelConfigs pj.dependencies lock) =
        (pre ++ post).foldl (subpathCfgStep pj.dependencies lock)
          (topLevelConfigs pj.dependencies lock) := by
      rw [List.foldl_append, List.foldl_append, List.foldl_cons, subpathCfgStep_skip _ _ _ _ hb]
    simp [hc]
  · simp only [imports]
    rw [subpathsFold_eq]
    simp only [List.nil_append, List.mem_flatten]
    refine ⟨subpathWarn pj.dependencies s, List.mem_map_of_mem _ (by simp), ?_⟩
    simp only [List.headD_eq_head?_getD] at hb
    simp [subpathWarn, hb]

/-- **C9 witness.**  `lodash/fp` is requested without `lodash` in the
manifest: the map equals the one generated without it (so `react-dom/client`
is still resolved) and the diagnostic for base `lodash` is emitted. -/
theorem C9_skip_unresolved_subpath_witness :
    (imports false ["lodash/fp", "react-dom/client"] (some pjReactDom) none).1 =
      (imports false ["react-dom/client"] (some pjReactDom) none).1 ∧
    warnNoVersion "lodash" "lodash/fp" ∈
      (imports false ["lodash/fp", "react-dom/client"] (some pjReactDom) none).2 :=
  C9_skip_unresolved_subpath false [] ["react-dom/client"] "lodash/fp" pjReactDom none rfl

end Melina
